import Mathlib

/-!
Verification development for the re3data API example notebooks.

The repository consists of four notebooks that query the re3data registry,
parse XML detail documents with XPath, extract named fields into flat
records, and assemble the records into a table:

* use case 1 (Python, `examples-python/01_re3data_API_medical_research_community.ipynb`):
  single-valued extraction `lst[0] if lst else None`, unconditional append;
* use case 1 (R) : same fields, `xml_find_all` based extraction;
* use case 2 (R) : `type` / `certificate` concatenated with `"_AND_"` after
  `unique()`, post-processed with `na_if`, `ifelse(is.na(...))` and
  `separate_rows`;
* use case 3 (Python): multi-valued `api` / `api_type` columns exploded with
  `DataFrame.apply(pandas.Series.explode)` and deduplicated with
  `drop_duplicates(subset=["re3data_id", "api_type"])`.

A parsed XML detail document is embedded as the lists of matches, in
document order, of each XPath expression the notebooks evaluate.  Library
operations used by the notebooks (pandas explode / drop_duplicates, R
`unique`, `paste(collapse=)`, `strsplit`-based `separate_rows`) are embedded
faithfully to their library semantics, as documented on each definition.
-/

/-- Model of one parsed detail document: for each XPath expression used by
the notebooks, the list of its matches in document order
(`identifiers` for `re3data.orgIdentifier/text()`, `names` for
`repositoryName/text()`, `urls` for `repositoryURL/text()`, `apis` for
`api/text()`, `apiTypes` for `@apiType`, and likewise `descriptions`,
`types`, `certificates`). -/
structure XmlDoc where
  identifiers : List String
  names : List String
  urls : List String
  descriptions : List String
  apis : List String
  apiTypes : List String
  types : List String
  certificates : List String
deriving DecidableEq

/-- Model of the Python idiom `lst[0] if lst else None` used by the
use-case-1 extractor: first element when the match list is non-empty
(Python truthiness), `None` otherwise. -/
def pyFirst (l : List String) : Option String :=
  if h : l.length = 0 then none else some (l.get ⟨0, Nat.pos_of_ne_zero h⟩)

/-- Record produced by `extract_repository_info` of the Python use-case-1
notebook: every field is optional. -/
structure Record1 where
  re3data_id : Option String
  name : Option String
  url : Option String
  description : Option String
deriving DecidableEq

/-- Embedding of `extract_repository_info` from the Python use-case-1
notebook: each field is `matches[0] if matches else None`. -/
def extract_repository_info_uc1 (d : XmlDoc) : Record1 :=
  { re3data_id := pyFirst d.identifiers
    name := pyFirst d.names
    url := pyFirst d.urls
    description := pyFirst d.descriptions }

/-- Sequential fetch-extract-append loop shared by the notebooks: starting
from an empty accumulator, process each URL in order and append the batch
of records it yields.  A `none` batch models an uncaught exception raised
while processing that URL (transport failure, parse failure, or
`IndexError` in the extractor): the loop has no `try`/`except`, so the
whole run aborts, rendered as the `Option.bind` chain collapsing to
`none`. -/
def runBatches {ρ : Type} (batchOf : String → Option (List ρ))
    (urls : List String) : Option (List ρ) :=
  urls.foldl
    (fun acc u => acc.bind fun rows => (batchOf u).map fun b => rows ++ b)
    (some [])

/-- Embedding of the use-case-1 fetch loop
(`for url in urls: ... results.append(extract_repository_info(...))`).
`fetch` returns `none` when the GET or the parse of that URL raises
(transport failure / malformed body); every successfully fetched document
contributes exactly one record, appended unconditionally. -/
def run_uc1 (fetch : String → Option XmlDoc) (urls : List String) :
    Option (List Record1) :=
  runBatches (fun u => (fetch u).map fun d => [extract_repository_info_uc1 d]) urls

/-- Record produced by `extract_repository_info` of the Python use-case-3
notebook: `re3data_id` and `name` are plain strings (the source indexes
`[0]`), while `url`, `api` and `api_type` keep the whole match lists. -/
structure Record3 where
  re3data_id : String
  name : String
  url : List String
  api : List String
  api_type : List String
deriving DecidableEq

/-- Embedding of `extract_repository_info` from the Python use-case-3
notebook.  The source indexes `xpath(...)[0]` for the identifier and the
name, which raises `IndexError` when the match list is empty; the
exception is rendered as `none`. -/
def extract_repository_info_uc3 (d : XmlDoc) : Option Record3 :=
  match d.identifiers, d.names with
  | i :: _, n :: _ => some ⟨i, n, d.urls, d.apis, d.apiTypes⟩
  | _, _ => none

/-- Batch of records one document contributes to the use-case-3 table:
the loop appends the record only `if len(repository_info["api"]) > 0`
(a caller-level filter), so a successfully extracted record with an empty
`api` list yields an empty batch. -/
def docBatch (d : XmlDoc) : Option (List Record3) :=
  (extract_repository_info_uc3 d).map fun r => if r.api = [] then [] else [r]

/-- Embedding of the use-case-3 fetch loop.  As in `run_uc1`, there is no
exception handling in the source, so a transport failure (`fetch u = none`)
or an `IndexError` inside the extractor collapses the whole run to
`none`. -/
def run_uc3 (fetch : String → Option XmlDoc) (urls : List String) :
    Option (List Record3) :=
  runBatches (fun u => (fetch u).bind docBatch) urls

/-- Model of `pandas.Series.explode` on one cell: an empty list explodes to
a single missing value (`NaN`), a non-empty list to its elements. -/
def explodeCell (l : List String) : List (Option String) :=
  match l with
  | [] => [none]
  | _ => l.map some

/-- Length a list cell occupies after `pandas.Series.explode`
(`max 1 (length l)`). -/
def cellLen (l : List String) : Nat := (explodeCell l).length

/-- Number of output rows one record occupies after
`DataFrame.apply(pandas.Series.explode)`: the maximal exploded length over
the list-valued columns (scalar columns occupy one slot and never exceed
it). -/
def rowMax (r : Record3) : Nat :=
  max (cellLen r.url) (max (cellLen r.api) (cellLen r.api_type))

/-- Alignment condition of pandas 1.4.2 for one column under
`DataFrame.apply(pandas.Series.explode)`: the per-column exploded Series
are recombined by index alignment, which succeeds for a column iff either
its exploded index already equals the union index (every record occupies
exactly `rowMax` slots in this column), or its exploded index is unique
(at most one slot per record), in which case the value is broadcast.  Any
other column raises `ValueError: cannot reindex on an axis with duplicate
labels`. -/
def colOk (c : Record3 → List String) (rs : List Record3) : Bool :=
  rs.all (fun r => cellLen (c r) == rowMax r) ||
    rs.all (fun r => decide (cellLen (c r) ≤ 1))

/-- Values a column contributes for one record after the explode: the
exploded cell itself when the column is aligned for this record, otherwise
its single exploded value broadcast to all `rowMax` rows. -/
def colValues (c : Record3 → List String) (r : Record3) : List (Option String) :=
  if cellLen (c r) = rowMax r then explodeCell (c r)
  else List.replicate (rowMax r) ((explodeCell (c r)).getD 0 none)

/-- One output row of the exploded use-case-3 table. -/
structure Row3 where
  re3data_id : String
  name : String
  url : Option String
  api : Option String
  api_type : Option String
deriving DecidableEq

/-- Rows one record expands to under
`DataFrame.apply(pandas.Series.explode)` (assuming alignment succeeded):
scalar columns repeat, list columns contribute `colValues`. -/
def explodeRecord (r : Record3) : List Row3 :=
  (List.range (rowMax r)).map fun j =>
    { re3data_id := r.re3data_id
      name := r.name
      url := (colValues Record3.url r).getD j none
      api := (colValues Record3.api r).getD j none
      api_type := (colValues Record3.api_type r).getD j none }

/-- Embedding of `repository_info.apply(pandas.Series.explode)` from the
use-case-3 notebook: `none` models the `ValueError` pandas 1.4.2 raises
when some list column can neither align nor broadcast (see `colOk`);
otherwise each record expands to `explodeRecord`. -/
def applyExplode (rs : List Record3) : Option (List Row3) :=
  if colOk Record3.url rs && colOk Record3.api rs && colOk Record3.api_type rs
  then some (rs.map explodeRecord).flatten
  else none

/-- Keep-first deduplication scan with an accumulator of already seen keys;
models the scan of `pandas.DataFrame.drop_duplicates(subset=...)`
(default `keep="first"`) and of R `unique()`. -/
def dedupSeen {α κ : Type} [DecidableEq κ] (key : α → κ) :
    List κ → List α → List α
  | _, [] => []
  | seen, x :: xs =>
    if key x ∈ seen then dedupSeen key seen xs
    else x :: dedupSeen key (key x :: seen) xs

/-- Embedding of `drop_duplicates(subset=key)` / R `unique()`: keep the
first occurrence of every key. -/
def dropDuplicatesKey {α κ : Type} [DecidableEq κ] (key : α → κ)
    (l : List α) : List α :=
  dedupSeen key [] l

/-- Embedding of `repository_info.drop_duplicates(subset=["re3data_id",
"api_type"])` from the use-case-3 notebook (pandas treats missing values
as equal for deduplication, as does equality on `Option`). -/
def dropDuplicatesIdApiType (rows : List Row3) : List Row3 :=
  dropDuplicatesKey (fun r => (r.re3data_id, r.api_type)) rows

/-- Embedding of R `unique()` on a character vector: first occurrence of
every value, in order. -/
def rUnique (l : List String) : List String :=
  dropDuplicatesKey (fun s => s) l

/-- Embedding of R `paste(v, collapse = "_AND_")`: the empty vector
collapses to the empty string. -/
def joinAND : List String → String
  | [] => ""
  | [x] => x
  | x :: xs => x ++ "_AND_" ++ joinAND xs

/-- Raw record produced by `extract_repository_info` of the R use-case-2
notebook: all identifier matches are kept (`xml_find_all`), `type` and
`certificate` are deduplicated with `unique()` and collapsed with
`"_AND_"`. -/
structure RawRecord2 where
  re3data_ID : List String
  type : String
  certificate : String
deriving DecidableEq

/-- Embedding of `extract_repository_info` from the R use-case-2
notebook. -/
def extract_repository_info_uc2 (d : XmlDoc) : RawRecord2 :=
  { re3data_ID := d.identifiers
    type := joinAND (rUnique d.types)
    certificate := joinAND (rUnique d.certificates) }

/-- Embedding of R `na_if(x, "")` as applied by
`mutate_all(na_if, "")`. -/
def naIf (s : String) : Option String :=
  if s = "" then none else some s

/-- Character sequence of the separator `"_AND_"`. -/
def sepChars : List Char := ['_', 'A', 'N', 'D', '_']

/-- Fuel-indexed scan splitting a character list on the literal separator
`"_AND_"`.  Models the fixed-pattern split performed by
`tidyr::separate_rows(type, sep = "_AND_")` (the pattern has no regex
metacharacters).  The fuel, always instantiated with the input length, only
makes the recursion structural. -/
def splitAux : Nat → List Char → List Char → List (List Char)
  | _, [], acc => [acc.reverse]
  | 0, cs, acc => [acc.reverse ++ cs]
  | fuel + 1, c :: rest, acc =>
    if sepChars.isPrefixOf (c :: rest) then
      acc.reverse :: splitAux fuel (rest.drop 4) []
    else
      splitAux fuel rest (c :: acc)

/-- Split a string on the literal separator `"_AND_"`. -/
def splitAND (s : String) : List String :=
  (splitAux s.data.length s.data []).map String.mk

/-- One row of the processed use-case-2 table (after `mutate_all(na_if)`,
the certificate coercion, and `separate_rows`). -/
structure Row2 where
  re3data_ID : List String
  type : Option String
  certificate : Bool
deriving DecidableEq

/-- Embedding of the use-case-2 post-processing for the record of one
document: `mutate_all(na_if, "")` nullifies empty strings,
`mutate(certificate = ifelse(is.na(certificate), FALSE, TRUE))` coerces the
certificate column to a Boolean, and `separate_rows(type, sep = "_AND_")`
expands the concatenated type string into one row per value (a missing
type yields a single row with a missing value). -/
def processDoc_uc2 (d : XmlDoc) : List Row2 :=
  let r := extract_repository_info_uc2 d
  let cert : Bool := (naIf r.certificate).isSome
  match naIf r.type with
  | none => [{ re3data_ID := r.re3data_ID, type := none, certificate := cert }]
  | some s =>
    (splitAND s).map fun t =>
      { re3data_ID := r.re3data_ID, type := some t, certificate := cert }

/-! ### Basic lemmas about the embedded operations -/

/-- Python first-or-`None` indexing agrees with `List.head?`. -/
lemma pyFirst_eq_head (l : List String) : pyFirst l = l.head? := by
  cases l <;> simp [pyFirst]

lemma explodeCell_of_ne_nil {l : List String} (h : l ≠ []) :
    explodeCell l = l.map some := by
  cases l with
  | nil => exact absurd rfl h
  | cons a t => rfl

lemma cellLen_of_ne_nil {l : List String} (h : l ≠ []) : cellLen l = l.length := by
  rw [cellLen, explodeCell_of_ne_nil h, List.length_map]

lemma cellLen_of_le_one {l : List String} (h : l.length ≤ 1) : cellLen l = 1 := by
  cases l with
  | nil => rfl
  | cons a t =>
    cases t with
    | nil => rfl
    | cons b t => simp at h

lemma explodeCell_getD_zero (l : List String) :
    (explodeCell l).getD 0 none = l.head? := by
  cases l <;> rfl

lemma getD_map_some (l : List String) (j : Nat) :
    (l.map some).getD j none = l[j]? := by
  rw [List.getD_eq_getElem?_getD, List.getElem?_map]
  cases l[j]? <;> rfl

lemma getD_replicate {α : Type} (a : α) (d : α) {j n : Nat} (h : j < n) :
    (List.replicate n a).getD j d = a := by
  rw [List.getD_eq_getElem?_getD, List.getElem?_replicate, if_pos h]
  rfl

/-! ### Lemmas about the sequential fetch loop -/

lemma runBatches_shift {ρ : Type} (b : String → Option (List ρ)) :
    ∀ (urls : List String) (o : Option (List ρ)),
      urls.foldl (fun acc u => acc.bind fun rows => (b u).map fun bb => rows ++ bb) o
        = o.bind fun rows => (runBatches b urls).map fun t => rows ++ t
  | [], o => by cases o <;> simp [runBatches]
  | u :: urls, o => by
    rw [List.foldl_cons, runBatches_shift b urls]
    have h2 : runBatches b (u :: urls)
        = ((some ([] : List ρ)).bind fun rows =>
            (b u).map fun bb => rows ++ bb).bind fun rows =>
              (runBatches b urls).map fun t => rows ++ t := by
      rw [runBatches, List.foldl_cons, runBatches_shift b urls]
    rw [h2]
    cases o with
    | none => simp
    | some rows =>
      cases hb : b u with
      | none => simp [hb]
      | some bb =>
        cases hr : runBatches b urls with
        | none => simp [hb, hr]
        | some t => simp [hb, hr, List.append_assoc]

lemma runBatches_cons {ρ : Type} (b : String → Option (List ρ)) (u : String)
    (urls : List String) :
    runBatches b (u :: urls)
      = (b u).bind fun bb => (runBatches b urls).map fun t => bb ++ t := by
  rw [runBatches, List.foldl_cons, runBatches_shift b urls]
  cases b u <;> simp

lemma runBatches_append {ρ : Type} (b : String → Option (List ρ))
    (us vs : List String) :
    runBatches b (us ++ vs)
      = (runBatches b us).bind fun r1 => (runBatches b vs).map fun t => r1 ++ t := by
  rw [runBatches, List.foldl_append, runBatches_shift b vs]
  rfl

lemma runBatches_abort {ρ : Type} (b : String → Option (List ρ)) {u : String}
    (hu : b u = none) (us vs : List String) :
    runBatches b (us ++ u :: vs) = none := by
  rw [runBatches_append, runBatches_cons, hu]
  cases runBatches b us <;> simp

lemma runBatches_eq_flatten {ρ : Type} (b : String → Option (List ρ)) :
    ∀ (urls : List String) (t : List ρ), runBatches b urls = some t →
      t = (urls.map fun u => (b u).getD []).flatten
  | [], t, h => by
    simp [runBatches] at h
    simp [← h]
  | u :: urls, t, h => by
    rw [runBatches_cons] at h
    cases hb : b u with
    | none => rw [hb] at h; simp at h
    | some bb =>
      rw [hb] at h
      cases hr : runBatches b urls with
      | none => rw [hr] at h; simp at h
      | some t2 =>
        rw [hr] at h
        simp at h
        have ih := runBatches_eq_flatten b urls t2 hr
        simp [← h, hb, ih]

/-! ### Lemmas about keep-first deduplication -/

lemma dedupSeen_sublist {α κ : Type} [DecidableEq κ] (key : α → κ) :
    ∀ (seen : List κ) (l : List α), (dedupSeen key seen l).Sublist l
  | _, [] => List.Sublist.refl _
  | seen, x :: xs => by
    simp only [dedupSeen]
    by_cases h : key x ∈ seen
    · rw [if_pos h]
      exact (dedupSeen_sublist key seen xs).cons x
    · rw [if_neg h]
      exact (dedupSeen_sublist key (key x :: seen) xs).cons₂ x

lemma key_not_mem_seen {α κ : Type} [DecidableEq κ] (key : α → κ) :
    ∀ (seen : List κ) (l : List α) (a : α),
      a ∈ dedupSeen key seen l → key a ∉ seen
  | _, [], a, h => absurd h (List.not_mem_nil a)
  | seen, x :: xs, a, h => by
    simp only [dedupSeen] at h
    by_cases hx : key x ∈ seen
    · rw [if_pos hx] at h
      exact key_not_mem_seen key seen xs a h
    · rw [if_neg hx] at h
      rcases List.mem_cons.mp h with rfl | h2
      · exact hx
      · have h3 := key_not_mem_seen key (key x :: seen) xs a h2
        exact fun hs => h3 (List.mem_cons_of_mem _ hs)

lemma dedupSeen_pairwise {α κ : Type} [DecidableEq κ] (key : α → κ) :
    ∀ (seen : List κ) (l : List α),
      (dedupSeen key seen l).Pairwise fun a b => key a ≠ key b
  | _, [] => List.Pairwise.nil
  | seen, x :: xs => by
    simp only [dedupSeen]
    by_cases hx : key x ∈ seen
    · rw [if_pos hx]
      exact dedupSeen_pairwise key seen xs
    · rw [if_neg hx]
      refine List.Pairwise.cons ?_ (dedupSeen_pairwise key (key x :: seen) xs)
      intro z hz he
      exact key_not_mem_seen key (key x :: seen) xs z hz
        (by rw [← he]; exact List.mem_cons_self _ _)

lemma dedupSeen_eq_self {α κ : Type} [DecidableEq κ] (key : α → κ) :
    ∀ (seen : List κ) (l : List α),
      (∀ a ∈ l, key a ∉ seen) →
      l.Pairwise (fun a b => key a ≠ key b) →
      dedupSeen key seen l = l
  | _, [], _, _ => rfl
  | seen, x :: xs, hseen, hpw => by
    simp only [dedupSeen]
    rw [if_neg (hseen x (List.mem_cons_self _ _))]
    congr 1
    rcases List.pairwise_cons.mp hpw with ⟨hx, hxs⟩
    apply dedupSeen_eq_self
    · intro a ha hmem
      rcases List.mem_cons.mp hmem with he | hs
      · exact hx a ha he.symm
      · exact hseen a (List.mem_cons_of_mem _ ha) hs
    · exact hxs

lemma dropDuplicatesKey_idem {α κ : Type} [DecidableEq κ] (key : α → κ)
    (l : List α) :
    dropDuplicatesKey key (dropDuplicatesKey key l) = dropDuplicatesKey key l := by
  apply dedupSeen_eq_self
  · simp
  · exact dedupSeen_pairwise key [] l

lemma length_filter_dedup_le (rows : List Row3) (i : String) :
    ((dropDuplicatesIdApiType rows).filter fun r => r.re3data_id == i).length ≤
      (((rows.filter fun r => r.re3data_id == i).map Row3.api_type).dedup).length := by
  have hpwF : ((dropDuplicatesIdApiType rows).filter
      fun r => r.re3data_id == i).Pairwise (fun a b => a.api_type ≠ b.api_type) := by
    have hpwD : (dropDuplicatesIdApiType rows).Pairwise
        (fun a b => (a.re3data_id, a.api_type) ≠ (b.re3data_id, b.api_type)) :=
      dedupSeen_pairwise _ [] rows
    have hpwD2 : ((dropDuplicatesIdApiType rows).filter
        fun r => r.re3data_id == i).Pairwise
          (fun a b => (a.re3data_id, a.api_type) ≠ (b.re3data_id, b.api_type)) :=
      hpwD.sublist (List.filter_sublist _)
    refine hpwD2.imp_of_mem ?_
    intro a b ha hb hab he
    apply hab
    have hai : a.re3data_id = i := beq_iff_eq.mp (List.mem_filter.mp ha).2
    have hbi : b.re3data_id = i := beq_iff_eq.mp (List.mem_filter.mp hb).2
    rw [hai, hbi, he]
  have hnodup : (((dropDuplicatesIdApiType rows).filter
      fun r => r.re3data_id == i).map Row3.api_type).Nodup :=
    List.pairwise_map.mpr hpwF
  have hsubset : (((dropDuplicatesIdApiType rows).filter
      fun r => r.re3data_id == i).map Row3.api_type).toFinset ⊆
      ((rows.filter fun r => r.re3data_id == i).map Row3.api_type).toFinset := by
    intro x hx
    rw [List.mem_toFinset] at hx ⊢
    rcases List.mem_map.mp hx with ⟨r, hr, rfl⟩
    refine List.mem_map_of_mem _ ?_
    rcases List.mem_filter.mp hr with ⟨hrD, hri⟩
    exact List.mem_filter.mpr ⟨(dedupSeen_sublist _ [] rows).subset hrD, hri⟩
  calc ((dropDuplicatesIdApiType rows).filter fun r => r.re3data_id == i).length
      = (((dropDuplicatesIdApiType rows).filter
          fun r => r.re3data_id == i).map Row3.api_type).length := by simp
    _ = (((dropDuplicatesIdApiType rows).filter
          fun r => r.re3data_id == i).map Row3.api_type).toFinset.card :=
        (List.toFinset_card_of_nodup hnodup).symm
    _ ≤ ((rows.filter fun r => r.re3data_id == i).map Row3.api_type).toFinset.card :=
        Finset.card_le_card hsubset
    _ = (((rows.filter fun r => r.re3data_id == i).map Row3.api_type).dedup).length :=
        List.card_toFinset _

/-! ### Lemmas about the separator split and join -/

/-- Character-list version of `joinAND`. -/
def joinChars : List (List Char) → List Char
  | [] => []
  | [v] => v
  | v :: vs => v ++ sepChars ++ joinChars vs

lemma sep_data : ("_AND_" : String).data = sepChars := by decide

lemma empty_data : ("" : String).data = [] := rfl

lemma string_mk_data (s : String) : String.mk s.data = s := rfl

lemma joinAND_data :
    ∀ vs : List String, (joinAND vs).data = joinChars (vs.map String.data)
  | [] => rfl
  | [x] => rfl
  | x :: y :: xs => by
    have ih := joinAND_data (y :: xs)
    rw [show joinAND (x :: y :: xs) = x ++ "_AND_" ++ joinAND (y :: xs) from rfl]
    simp only [List.map_cons]
    rw [show joinChars (x.data :: y.data :: xs.map String.data)
        = x.data ++ sepChars ++ joinChars (y.data :: xs.map String.data) from rfl]
    simp only [List.map_cons] at ih
    simp [String.data_append, ih, sep_data, sepChars]

lemma isPrefixOf_sep_false {c : Char} (hc : c ≠ '_') (l : List Char) :
    sepChars.isPrefixOf (c :: l) = false := by
  have hb : ('_' == c) = false := beq_eq_false_iff_ne.mpr (Ne.symm hc)
  simp [sepChars, List.isPrefixOf, hb]

lemma splitAux_value : ∀ (v : List Char), (∀ c ∈ v, c ≠ '_') →
    ∀ (fuel : Nat) (cs acc : List Char), v.length ≤ fuel →
      splitAux fuel (v ++ cs) acc = splitAux (fuel - v.length) cs (v.reverse ++ acc)
  | [], _, fuel, cs, acc, _ => by simp
  | c :: v, hv, fuel, cs, acc, h => by
    match fuel with
    | 0 => exact absurd h (by simp)
    | f + 1 =>
      have hc : c ≠ '_' := hv c (List.mem_cons_self _ _)
      have hpre := isPrefixOf_sep_false hc (v ++ cs)
      have ih := splitAux_value v (fun x hx => hv x (List.mem_cons_of_mem _ hx))
        f cs (c :: acc) (by simp at h; omega)
      show splitAux (f + 1) (c :: (v ++ cs)) acc = _
      rw [show splitAux (f + 1) (c :: (v ++ cs)) acc
          = if sepChars.isPrefixOf (c :: (v ++ cs)) then
              acc.reverse :: splitAux f ((v ++ cs).drop 4) []
            else splitAux f (v ++ cs) (c :: acc) from rfl]
      rw [hpre]
      simp only [Bool.false_eq_true, if_false]
      rw [ih]
      congr 1
      · simp
      · simp

lemma splitAux_boundary (fuel : Nat) (cs acc : List Char) :
    splitAux (fuel + 1) (sepChars ++ cs) acc = acc.reverse :: splitAux fuel cs [] := by
  show splitAux (fuel + 1) ('_' :: (['A', 'N', 'D', '_'] ++ cs)) acc = _
  rw [show splitAux (fuel + 1) ('_' :: (['A', 'N', 'D', '_'] ++ cs)) acc
      = if sepChars.isPrefixOf ('_' :: (['A', 'N', 'D', '_'] ++ cs)) then
          acc.reverse :: splitAux fuel ((['A', 'N', 'D', '_'] ++ cs).drop 4) []
        else splitAux fuel (['A', 'N', 'D', '_'] ++ cs) ('_' :: acc) from rfl]
  have hpre : sepChars.isPrefixOf ('_' :: (['A', 'N', 'D', '_'] ++ cs)) = true := by
    simp [sepChars, List.isPrefixOf]
  rw [hpre]
  simp

lemma splitAux_joinChars : ∀ (L : List (List Char)), L ≠ [] →
    (∀ v ∈ L, ∀ c ∈ v, c ≠ '_') →
    ∀ fuel, (joinChars L).length ≤ fuel →
      splitAux fuel (joinChars L) [] = L
  | [], h, _, _, _ => absurd rfl h
  | [v], _, hv, fuel, hf => by
    have h1 : joinChars [v] = v ++ [] := by simp [joinChars]
    rw [h1, splitAux_value v (hv v (by simp)) fuel [] []
      (by simpa [joinChars] using hf)]
    simp [splitAux]
  | v :: w :: L', _, hv, fuel, hf => by
    have hj : joinChars (v :: w :: L')
        = v ++ (sepChars ++ joinChars (w :: L')) := by
      rw [show joinChars (v :: w :: L')
          = v ++ sepChars ++ joinChars (w :: L') from rfl]
      simp [List.append_assoc]
    have hlen : v.length + (5 + (joinChars (w :: L')).length) ≤ fuel := by
      have h5 := hf
      rw [hj] at h5
      simp [List.length_append, sepChars] at h5
      omega
    rw [hj, splitAux_value v (hv v (by simp)) fuel _ [] (by omega)]
    obtain ⟨f, hfe⟩ : ∃ f, fuel - v.length = f + 1 :=
      ⟨fuel - v.length - 1, by omega⟩
    rw [hfe, splitAux_boundary]
    rw [splitAux_joinChars (w :: L') (by simp)
      (fun u hu => hv u (List.mem_cons_of_mem _ hu)) f (by omega)]
    simp

lemma splitAND_joinAND (vs : List String) (hne : vs ≠ [])
    (hv : ∀ t ∈ vs, ∀ c ∈ t.data, c ≠ '_') :
    splitAND (joinAND vs) = vs := by
  rw [splitAND, joinAND_data]
  rw [splitAux_joinChars (vs.map String.data) (by simpa using hne)
    (by
      intro u hu
      rcases List.mem_map.mp hu with ⟨t, ht, rfl⟩
      exact hv t ht)
    _ le_rfl]
  simp [List.map_map, Function.comp_def, string_mk_data]

lemma data_ne_nil {v : String} (h : v ≠ "") : v.data ≠ [] := by
  intro hd
  apply h
  rw [← string_mk_data v, hd]

lemma joinAND_ne_empty (v : String) (rest : List String) (h : v ≠ "") :
    joinAND (v :: rest) ≠ "" := by
  intro he
  have hd := congrArg String.data he
  rw [joinAND_data, empty_data] at hd
  cases rest with
  | nil => exact data_ne_nil h (by simpa [joinChars] using hd)
  | cons w t =>
    simp only [List.map_cons] at hd
    rw [show joinChars (v.data :: w.data :: t.map String.data)
        = v.data ++ sepChars ++ joinChars (w.data :: t.map String.data) from rfl] at hd
    simp [sepChars] at hd

lemma naIf_joinAND (v : String) (rest : List String) (h : v ≠ "") :
    naIf (joinAND (v :: rest)) = some (joinAND (v :: rest)) := by
  rw [naIf, if_neg (joinAND_ne_empty v rest h)]

lemma mem_of_mem_rUnique {a : String} {l : List String}
    (h : a ∈ rUnique l) : a ∈ l :=
  (dedupSeen_sublist _ [] l).subset h

lemma rUnique_ne_nil {l : List String} (h : l ≠ []) : rUnique l ≠ [] := by
  cases l with
  | nil => exact absurd rfl h
  | cons x xs =>
    rw [rUnique, dropDuplicatesKey]
    simp only [dedupSeen]
    rw [if_neg (List.not_mem_nil x)]
    simp

/-! ### Lemmas about the explode step -/

lemma extract_uc3_cons (d : XmlDoc) (i n : String) (ti tn : List String)
    (hi : d.identifiers = i :: ti) (hn : d.names = n :: tn) :
    extract_repository_info_uc3 d = some ⟨i, n, d.urls, d.apis, d.apiTypes⟩ := by
  unfold extract_repository_info_uc3
  rw [hi, hn]

lemma extract_uc3_no_identifier (d : XmlDoc) (hd : d.identifiers = []) :
    extract_repository_info_uc3 d = none := by
  unfold extract_repository_info_uc3
  rw [hd]

lemma extract_uc3_missing_required (d : XmlDoc)
    (hd : d.identifiers = [] ∨ d.names = []) :
    extract_repository_info_uc3 d = none := by
  rcases hd with h | h
  · exact extract_uc3_no_identifier d h
  · unfold extract_repository_info_uc3
    rw [h]
    cases d.identifiers <;> rfl

lemma colOk_of_le_one (c : Record3 → List String) (r : Record3)
    (h : (c r).length ≤ 1) : colOk c [r] = true := by
  simp [colOk, cellLen_of_le_one h]

lemma colOk_aligned (c : Record3 → List String) (r : Record3)
    (h : cellLen (c r) = rowMax r) : colOk c [r] = true := by
  simp [colOk, h]

lemma applyExplode_singleton (r : Record3)
    (h1 : colOk Record3.url [r] = true) (h2 : colOk Record3.api [r] = true)
    (h3 : colOk Record3.api_type [r] = true) :
    applyExplode [r] = some (explodeRecord r) := by
  rw [applyExplode, h1, h2, h3]
  simp

lemma colValues_getD_aligned (c : Record3 → List String) (r : Record3)
    (hal : cellLen (c r) = rowMax r) (hne : c r ≠ []) (j : Nat) :
    (colValues c r).getD j none = (c r)[j]? := by
  rw [colValues, if_pos hal, explodeCell_of_ne_nil hne, getD_map_some]

lemma colValues_getD_single (c : Record3 → List String) (r : Record3)
    (hle : (c r).length ≤ 1) {j : Nat} (hj : j < rowMax r) :
    (colValues c r).getD j none = (c r).head? := by
  have h1 : cellLen (c r) = 1 := cellLen_of_le_one hle
  rw [colValues]
  by_cases hal : cellLen (c r) = rowMax r
  · rw [if_pos hal]
    have hj0 : j = 0 := by omega
    subst hj0
    exact explodeCell_getD_zero _
  · rw [if_neg hal, explodeCell_getD_zero]
    exact getD_replicate _ _ hj

lemma explodeRecord_pairs (r : Record3) (k : Nat)
    (ha : r.api.length = k) (ht : r.api_type.length = k) (hk : 1 ≤ k)
    (hu : r.url.length ≤ 1) :
    explodeRecord r = (List.range k).map fun j =>
      { re3data_id := r.re3data_id, name := r.name, url := r.url.head?,
        api := r.api[j]?, api_type := r.api_type[j]? } := by
  have hane : r.api ≠ [] := by
    intro e
    rw [e] at ha
    simp at ha
    omega
  have htne : r.api_type ≠ [] := by
    intro e
    rw [e] at ht
    simp at ht
    omega
  have hca : cellLen r.api = k := by rw [cellLen_of_ne_nil hane, ha]
  have hct : cellLen r.api_type = k := by rw [cellLen_of_ne_nil htne, ht]
  have hcu : cellLen r.url = 1 := cellLen_of_le_one hu
  have hrm : rowMax r = k := by
    rw [rowMax, hca, hct, hcu, max_self]
    exact max_eq_right hk
  rw [explodeRecord, hrm]
  apply List.map_congr_left
  intro j hj
  rw [List.mem_range] at hj
  have h1 := colValues_getD_single Record3.url r hu (j := j) (by rw [hrm]; exact hj)
  have h2 := colValues_getD_aligned Record3.api r (by rw [hca, hrm]) hane j
  have h3 := colValues_getD_aligned Record3.api_type r (by rw [hct, hrm]) htne j
  rw [h1, h2, h3]

lemma colOk_api_type_false (r : Record3) (h2 : 2 ≤ r.api_type.length)
    (hlt : r.api_type.length < r.api.length) :
    colOk Record3.api_type [r] = false := by
  have htne : r.api_type ≠ [] := by
    intro e
    rw [e] at h2
    simp at h2
  have hane : r.api ≠ [] := by
    intro e
    rw [e] at hlt
    simp at hlt
  have hct : cellLen r.api_type = r.api_type.length := cellLen_of_ne_nil htne
  have hca : cellLen r.api = r.api.length := cellLen_of_ne_nil hane
  have hrm : r.api.length ≤ rowMax r := by
    rw [rowMax, ← hca]
    exact le_max_of_le_right (le_max_left _ _)
  have hb1 : (cellLen r.api_type == rowMax r) = false :=
    beq_eq_false_iff_ne.mpr (by rw [hct]; omega)
  have hb2 : decide (cellLen r.api_type ≤ 1) = false :=
    decide_eq_false_iff_not.mpr (by rw [hct]; omega)
  simp [colOk, hb1, hb2]

lemma colOk_api_false (r : Record3) (h2 : 2 ≤ r.api.length)
    (hlt : r.api.length < r.api_type.length) :
    colOk Record3.api [r] = false := by
  have hane : r.api ≠ [] := by
    intro e
    rw [e] at h2
    simp at h2
  have htne : r.api_type ≠ [] := by
    intro e
    rw [e] at hlt
    simp at hlt
  have hca : cellLen r.api = r.api.length := cellLen_of_ne_nil hane
  have hct : cellLen r.api_type = r.api_type.length := cellLen_of_ne_nil htne
  have hrm : r.api_type.length ≤ rowMax r := by
    rw [rowMax, ← hct]
    exact le_max_of_le_right (le_max_right _ _)
  have hb1 : (cellLen r.api == rowMax r) = false :=
    beq_eq_false_iff_ne.mpr (by rw [hca]; omega)
  have hb2 : decide (cellLen r.api ≤ 1) = false :=
    decide_eq_false_iff_not.mpr (by rw [hca]; omega)
  simp [colOk, hb1, hb2]

lemma applyExplode_single_aligned (r : Record3) (k : Nat)
    (ha : r.api.length = k) (ht : r.api_type.length = k) (hk : 1 ≤ k)
    (hu : r.url.length ≤ 1) :
    applyExplode [r] = some (explodeRecord r) := by
  have hane : r.api ≠ [] := by
    intro e
    rw [e] at ha
    simp at ha
    omega
  have htne : r.api_type ≠ [] := by
    intro e
    rw [e] at ht
    simp at ht
    omega
  have hca : cellLen r.api = k := by rw [cellLen_of_ne_nil hane, ha]
  have hct : cellLen r.api_type = k := by rw [cellLen_of_ne_nil htne, ht]
  have hcu : cellLen r.url = 1 := cellLen_of_le_one hu
  have hrm : rowMax r = k := by
    rw [rowMax, hca, hct, hcu, max_self]
    exact max_eq_right hk
  exact applyExplode_singleton r (colOk_of_le_one _ _ hu)
    (colOk_aligned _ _ (by rw [hca, hrm])) (colOk_aligned _ _ (by rw [hct, hrm]))

lemma explodeRecord_all_single (r : Record3) (hu : r.url.length ≤ 1)
    (ha : r.api.length ≤ 1) (ht : r.api_type.length ≤ 1) :
    explodeRecord r
      = [⟨r.re3data_id, r.name, r.url.head?, r.api.head?, r.api_type.head?⟩] := by
  have hrm : rowMax r = 1 := by
    rw [rowMax, cellLen_of_le_one hu, cellLen_of_le_one ha, cellLen_of_le_one ht]
    simp
  rw [explodeRecord, hrm]
  rw [show List.range 1 = [0] from rfl]
  simp only [List.map_cons, List.map_nil]
  rw [colValues_getD_single Record3.url r hu (by rw [hrm]; omega),
    colValues_getD_single Record3.api r ha (by rw [hrm]; omega),
    colValues_getD_single Record3.api_type r ht (by rw [hrm]; omega)]

/-! ### Claims -/

/-- C1: for every parsed detail document with `k ≥ 1` occurrences of the
positionally paired multi-valued field group `(api, api_type)` with equal
occurrence counts (and a single-valued `url`), extraction followed by
explosion yields exactly `k` output rows: every row carries the same
non-null identifier, the single-valued columns (`name`, `url`) are
identical across the `k` rows, and the `j`-th row pairs the `j`-th `api`
value with the `j`-th `api_type` value (index-wise pairing, never a cross
join). -/
theorem c1_paired_group_explosion (d : XmlDoc) (i n : String)
    (ti tn : List String) (k : Nat)
    (hi : d.identifiers = i :: ti) (hn : d.names = n :: tn)
    (ha : d.apis.length = k) (ht : d.apiTypes.length = k) (hk : 1 ≤ k)
    (hu : d.urls.length ≤ 1) :
    extract_repository_info_uc3 d = some ⟨i, n, d.urls, d.apis, d.apiTypes⟩ ∧
    applyExplode [⟨i, n, d.urls, d.apis, d.apiTypes⟩]
      = some ((List.range k).map fun j =>
          { re3data_id := i, name := n, url := d.urls.head?,
            api := d.apis[j]?, api_type := d.apiTypes[j]? }) := by
  refine ⟨extract_uc3_cons d i n ti tn hi hn, ?_⟩
  rw [applyExplode_single_aligned ⟨i, n, d.urls, d.apis, d.apiTypes⟩ k ha ht hk hu,
    explodeRecord_pairs ⟨i, n, d.urls, d.apis, d.apiTypes⟩ k ha ht hk hu]

/-- Concrete document for the C1 witness: two paired API entries. -/
def docC1 : XmlDoc :=
  ⟨["r3dB", "r3dExtra"], ["Repo B"], ["https://b.example"], [],
    ["a1", "a2"], ["REST", "OAI-PMH"], [], []⟩

/-- Witness for C1 at a concrete two-API document. -/
theorem c1_paired_group_explosion_witness :
    extract_repository_info_uc3 docC1
      = some ⟨"r3dB", "Repo B", docC1.urls, docC1.apis, docC1.apiTypes⟩ ∧
    applyExplode [⟨"r3dB", "Repo B", docC1.urls, docC1.apis, docC1.apiTypes⟩]
      = some ((List.range 2).map fun j =>
          { re3data_id := "r3dB", name := "Repo B", url := docC1.urls.head?,
            api := docC1.apis[j]?, api_type := docC1.apiTypes[j]? }) :=
  c1_paired_group_explosion docC1 "r3dB" "Repo B" ["r3dExtra"] [] 2
    rfl rfl rfl rfl (by decide) (by decide)

/-- Concrete document for C2: it parses but has zero identifier matches. -/
def docC2 : XmlDoc :=
  ⟨[], ["Unnamed Repository"], ["https://example.org"], [], [], [], [], []⟩

/-- C2 counterexample: on a parsed document with zero identifier matches,
the use-case-1 extractor does not fail with a `MissingRequiredField`
condition and the document is not skipped; instead a record with a null
identifier is returned and appended to the table. -/
theorem c2_counterexample_null_id_record :
    (extract_repository_info_uc1 docC2).re3data_id = none ∧
    run_uc1 (fun _ => some docC2) ["u1"]
      = some [extract_repository_info_uc1 docC2] := by
  exact ⟨rfl, by decide⟩

/-- C2 (amended): no `MissingRequiredField` mechanism exists, for the
identifier and the name field alike.  The use-case-1 extractor returns a
record whose missing field (identifier or name) is null instead of
failing, and in use case 3 a document with zero matches for the
identifier or the name makes the `xpath(...)[0]` indexing raise an
uncaught `IndexError` that aborts the entire run rather than skipping the
single document. -/
theorem c2_no_missing_required_field_mechanism
    (d : XmlDoc) (fetch : String → Option XmlDoc) (us vs : List String)
    (u : String) (hd : d.identifiers = [] ∨ d.names = [])
    (hf : fetch u = some d) :
    (d.identifiers = [] → (extract_repository_info_uc1 d).re3data_id = none) ∧
    (d.names = [] → (extract_repository_info_uc1 d).name = none) ∧
    run_uc3 fetch (us ++ u :: vs) = none := by
  refine ⟨?_, ?_, ?_⟩
  · intro h
    show pyFirst d.identifiers = none
    rw [h]
    rfl
  · intro h
    show pyFirst d.names = none
    rw [h]
    rfl
  · rw [run_uc3]
    apply runBatches_abort
    show (fetch u).bind docBatch = none
    rw [hf]
    simp [docBatch, extract_uc3_missing_required d hd]

/-- Concrete document for the C2 witness: the identifier is present but
there are zero name matches. -/
def docC2n : XmlDoc :=
  ⟨["r3dX"], [], ["https://x.example"], [], [], [], [], []⟩

/-- Witness for the amended C2 at a concrete name-less document. -/
theorem c2_no_missing_required_field_mechanism_witness :
    (docC2n.identifiers = []
      → (extract_repository_info_uc1 docC2n).re3data_id = none) ∧
    (docC2n.names = [] → (extract_repository_info_uc1 docC2n).name = none) ∧
    run_uc3 (fun _ => some docC2n) (["a"] ++ "b" :: ["c"]) = none :=
  c2_no_missing_required_field_mechanism docC2n (fun _ => some docC2n)
    ["a"] ["c"] "b" (Or.inr rfl) rfl

/-- Concrete document for C3. -/
def docC3 : XmlDoc := ⟨["r3dA"], ["Repo A"], [], [], ["apiA"], ["REST"], [], []⟩

/-- Fetch function for C3 with a transport failure at `"u2"`. -/
def fetchC3 : String → Option XmlDoc :=
  fun u => if u = "u2" then none else some docC3

/-- C3 counterexample: with a transport failure for the middle resource,
the run yields no table at all (the exception propagates and aborts the
loop) instead of the two rows derived from the other resources that the
claim mandates. -/
theorem c3_counterexample_failure_aborts_run :
    run_uc1 fetchC3 ["u1", "u2", "u3"] = none ∧
    run_uc1 fetchC3 ["u1", "u3"]
      = some [extract_repository_info_uc1 docC3,
          extract_repository_info_uc1 docC3] := by
  exact ⟨by decide, by decide⟩

/-- C3 (amended): a transport failure (or malformed document) while
fetching one detail resource raises an uncaught exception: the fetch loop
aborts, no final table is produced, and resources after the failing one
are never processed. -/
theorem c3_transport_failure_aborts (fetch : String → Option XmlDoc)
    (us vs : List String) (u : String) (hf : fetch u = none) :
    run_uc1 fetch (us ++ u :: vs) = none := by
  rw [run_uc1]
  apply runBatches_abort
  show ((fetch u).map fun d => [extract_repository_info_uc1 d]) = none
  rw [hf]
  rfl

/-- Witness for the amended C3 at a concrete failing fetch. -/
theorem c3_transport_failure_aborts_witness :
    run_uc1 fetchC3 (["u1"] ++ "u2" :: ["u3"]) = none :=
  c3_transport_failure_aborts fetchC3 ["u1"] ["u3"] "u2" (by decide)

/-- Ragged record for C4: three `api` values but only two `api_type`
values (the spec's concrete scenario D). -/
def recC4 : Record3 :=
  ⟨"r3dD", "Repo D", ["https://d.example"], ["a", "b", "c"], ["REST", "SWORD"]⟩

/-- Concrete ragged document for C4. -/
def docC4 : XmlDoc :=
  ⟨["r3dD"], ["Repo D"], ["https://d.example"], [], ["a", "b", "c"],
    ["REST", "SWORD"], [], []⟩

/-- C4 counterexample: on the spec's ragged scenario
(`api = ["a","b","c"]`, `api_type = ["REST","SWORD"]`) extraction succeeds
but the explode step yields an error (`none`) instead of the three
null-padded rows with a recorded `RaggedFieldGroup` warning that the claim
mandates. -/
theorem c4_counterexample_ragged_explode_error :
    extract_repository_info_uc3 docC4 = some recC4 ∧
    applyExplode [recC4] = none := by
  exact ⟨by decide, by decide⟩

/-- C4 (amended): a positionally paired group with mismatched occurrence
counts whose shorter sub-field holds at least two values — in either
direction, `api` shorter or `api_type` shorter — makes the explode step
raise (pandas `ValueError`, modelled as `none`): the mismatch is fatal to
the table assembly, no null-padding happens and no warning is
recorded. -/
theorem c4_ragged_group_raises (r : Record3)
    (ha2 : 2 ≤ r.api.length) (ht2 : 2 ≤ r.api_type.length)
    (hne : r.api.length ≠ r.api_type.length) :
    applyExplode [r] = none := by
  rcases Nat.lt_or_ge r.api_type.length r.api.length with hlt | hge
  · rw [applyExplode, colOk_api_type_false r ht2 hlt]
    simp
  · rw [applyExplode, colOk_api_false r ha2 (by omega)]
    simp

/-- Ragged record for the C4 witness, in the direction mirroring the
counterexample: two `api` values, three `api_type` values. -/
def recC4w : Record3 := ⟨"r3dE", "Repo E", [], ["a", "b"], ["x", "y", "z"]⟩

/-- Witness for the amended C4 at a concrete ragged record whose `api`
sub-field is the shorter one. -/
theorem c4_ragged_group_raises_witness : applyExplode [recC4w] = none :=
  c4_ragged_group_raises recC4w (by decide) (by decide) (by decide)

/-- C5: for every document with zero occurrences of a multi-valued field
group, extraction yields exactly one record with nulls in that group's
columns; the document is not dropped by the extractor itself (its batch is
emptied only by the caller-level `len(api) > 0` filter in use case 3), and
the use-case-2 pipeline keeps one row with a null `type`. -/
theorem c5_zero_occurrence_single_row (d : XmlDoc) (i n : String)
    (ti tn : List String)
    (hi : d.identifiers = i :: ti) (hn : d.names = n :: tn)
    (ha : d.apis = []) (ht : d.apiTypes = []) (hu : d.urls.length ≤ 1)
    (hty : d.types = []) :
    extract_repository_info_uc3 d = some ⟨i, n, d.urls, [], []⟩ ∧
    docBatch d = some [] ∧
    applyExplode [⟨i, n, d.urls, [], []⟩]
      = some [⟨i, n, d.urls.head?, none, none⟩] ∧
    (processDoc_uc2 d).length = 1 ∧
    (processDoc_uc2 d).map Row2.type = [none] := by
  have hex : extract_repository_info_uc3 d = some ⟨i, n, d.urls, [], []⟩ := by
    have h0 := extract_uc3_cons d i n ti tn hi hn
    rw [ha, ht] at h0
    exact h0
  refine ⟨hex, ?_, ?_, ?_, ?_⟩
  · rw [docBatch, hex]
    simp
  · rw [applyExplode_singleton _ (colOk_of_le_one _ _ hu)
      (colOk_of_le_one _ _ (by simp)) (colOk_of_le_one _ _ (by simp))]
    rw [explodeRecord_all_single _ hu (by simp) (by simp)]
    rfl
  · simp [processDoc_uc2, extract_repository_info_uc2, hty, rUnique,
      dropDuplicatesKey, dedupSeen, joinAND, naIf]
  · simp [processDoc_uc2, extract_repository_info_uc2, hty, rUnique,
      dropDuplicatesKey, dedupSeen, joinAND, naIf]

/-- Concrete zero-API document for the C5 witness. -/
def docC5 : XmlDoc := ⟨["r3dI"], ["Repo I"], ["https://i.example"], [], [], [], [], []⟩

/-- Witness for C5 at a concrete zero-API document. -/
theorem c5_zero_occurrence_single_row_witness :
    extract_repository_info_uc3 docC5 = some ⟨"r3dI", "Repo I", docC5.urls, [], []⟩ ∧
    docBatch docC5 = some [] ∧
    applyExplode [⟨"r3dI", "Repo I", docC5.urls, [], []⟩]
      = some [⟨"r3dI", "Repo I", docC5.urls.head?, none, none⟩] ∧
    (processDoc_uc2 docC5).length = 1 ∧
    (processDoc_uc2 docC5).map Row2.type = [none] :=
  c5_zero_occurrence_single_row docC5 "r3dI" "Repo I" [] []
    rfl rfl rfl rfl (by decide) rfl

/-- C6: deduplicating the exploded table by the key
`(re3data_id, api_type)` produces, for each id, at most as many rows as
there are distinct `api_type` values present for that id, and the
deduplication is idempotent. -/
theorem c6_dedup_bound_and_idempotent (rows : List Row3) (i : String) :
    ((dropDuplicatesIdApiType rows).filter fun r => r.re3data_id == i).length ≤
      (((rows.filter fun r => r.re3data_id == i).map Row3.api_type).dedup).length ∧
    dropDuplicatesIdApiType (dropDuplicatesIdApiType rows)
      = dropDuplicatesIdApiType rows :=
  ⟨length_filter_dedup_le rows i, dropDuplicatesKey_idem _ rows⟩

/-- C7: in the use-case-1 extractor every single-valued field resolves to
the first matching value in document order when a match exists and to null
when no match exists; absence never raises (the extractor is total). -/
theorem c7_single_valued_first_or_null (d : XmlDoc) :
    extract_repository_info_uc1 d =
      { re3data_id := d.identifiers.head?, name := d.names.head?,
        url := d.urls.head?, description := d.descriptions.head? } := by
  rw [extract_repository_info_uc1, pyFirst_eq_head, pyFirst_eq_head,
    pyFirst_eq_head, pyFirst_eq_head]

/-- Concrete document for C8: two `type` entries, no certificate entry. -/
def docC8 : XmlDoc :=
  ⟨["r3d100000001"], ["Repo C"], [], [], [], [], ["institutional", "other"], []⟩

/-- C8: a document with `type` entries `["institutional", "other"]` and
zero certificate entries yields exactly two rows in the use-case-2
pipeline, one per type value, both with `certificate = false` coerced from
absence. -/
theorem c8_types_without_certificates :
    processDoc_uc2 docC8 =
      [⟨["r3d100000001"], some "institutional", false⟩,
        ⟨["r3d100000001"], some "other", false⟩] := by
  decide

/-- C9: whenever the use-case-3 run succeeds, the assembled table is the
concatenation, in encounter order, of the per-document record batches:
rows appear in the same order as the detail references they were derived
from. -/
theorem c9_encounter_order (fetch : String → Option XmlDoc)
    (urls : List String) (t : List Record3)
    (h : run_uc3 fetch urls = some t) :
    t = (urls.map fun u => ((fetch u).bind docBatch).getD []).flatten := by
  rw [run_uc3] at h
  exact runBatches_eq_flatten _ urls t h

/-- Concrete document for the C9 witness. -/
def docC9 : XmlDoc :=
  ⟨["r3dF"], ["Repo F"], [], [], ["a1", "a2"], ["REST", "OAI-PMH"], [], []⟩

/-- Record extracted from `docC9`. -/
def recC9 : Record3 := ⟨"r3dF", "Repo F", [], ["a1", "a2"], ["REST", "OAI-PMH"]⟩

/-- Witness for C9 at a concrete two-URL run. -/
theorem c9_encounter_order_witness :
    [recC9, recC9]
      = ((["u1", "u2"].map fun u =>
          (((fun _ => some docC9) u).bind docBatch).getD [])).flatten :=
  c9_encounter_order (fun _ => some docC9) ["u1", "u2"] [recC9, recC9] (by decide)

/-- Concrete document for the C10 counterexample: zero `type`
occurrences. -/
def docC10 : XmlDoc := ⟨["r3dG"], ["Repo G"], [], [], [], [], [], []⟩

/-- C10 counterexample: for a document with zero `type` occurrences the
pipeline yields one row (with a null type), not zero rows, so the number
of exploded rows does not equal the number of distinct type values for
every document. -/
theorem c10_counterexample_zero_types :
    (processDoc_uc2 docC10).length = 1 ∧ rUnique docC10.types = [] ∧
    (processDoc_uc2 docC10).length ≠ (rUnique docC10.types).length := by
  decide

/-- C10 (amended): for every document with at least one `type` occurrence
whose values are non-empty and do not contain the underscore character (so
the `_AND_` encoding is unambiguous), the `type` values pass through
`unique()` before concatenation, hence the exploded rows are exactly the
distinct type values in order of first occurrence: duplicates collapse to
a single row.  (A document with zero occurrences instead yields one row
with a null type.) -/
theorem c10_unique_collapses_duplicates (d : XmlDoc) (hne : d.types ≠ [])
    (hval : ∀ t ∈ d.types, t ≠ "" ∧ ∀ c ∈ t.data, c ≠ '_') :
    (processDoc_uc2 d).map Row2.type = (rUnique d.types).map some := by
  obtain ⟨v, rest, hvr⟩ : ∃ v rest, rUnique d.types = v :: rest := by
    cases hu : rUnique d.types with
    | nil => exact absurd hu (rUnique_ne_nil hne)
    | cons v rest => exact ⟨v, rest, rfl⟩
  have hvmem : v ∈ d.types :=
    mem_of_mem_rUnique (hvr ▸ List.mem_cons_self v rest)
  have hvempty : v ≠ "" := (hval v hvmem).1
  have hna : naIf (joinAND (rUnique d.types))
      = some (joinAND (rUnique d.types)) := by
    rw [hvr]
    exact naIf_joinAND v rest hvempty
  have hsplit : splitAND (joinAND (rUnique d.types)) = rUnique d.types := by
    apply splitAND_joinAND _ (rUnique_ne_nil hne)
    intro t ht
    exact (hval t (mem_of_mem_rUnique ht)).2
  simp only [processDoc_uc2, extract_repository_info_uc2]
  rw [hna]
  simp [List.map_map, Function.comp_def, hsplit]

/-- Concrete document for the C10 witness: a duplicated type value. -/
def docC10w : XmlDoc :=
  ⟨["r3dH"], ["Repo H"], [], [], [], [],
    ["institutional", "other", "institutional"], []⟩

/-- Witness for the amended C10 at a concrete document with a duplicate
type value. -/
theorem c10_unique_collapses_duplicates_witness :
    (processDoc_uc2 docC10w).map Row2.type = (rUnique docC10w.types).map some :=
  c10_unique_collapses_duplicates docC10w (by decide) (by decide)
